import Mathlib

/-!
Verification of the C-header generator core (rust/gen-c-headers.py).

The script scans Rust source text for lines of the shape
  pub (unsafe )?extern "C" fn NAME(ARGS) (-> RET)? ... {
and emits one C prototype line per match.  We shallowly embed the two
regular expressions used by the script, the fixed type/modifier tables,
the type translator `convert_type`, the extraction of function
descriptors and the prototype-line formatter, and prove the claimed
properties about them.
-/

namespace GenCHeaders

/-- ASCII whitespace, the byte-string semantics of the Python regex
class backslash-s and of the string method that trims whitespace. -/
def isWs (c : Char) : Bool :=
  c = ' ' || c = '\t' || c = '\n' || c = '\r' || c = '\x0b' || c = '\x0c'

/-- The fixed map of Rust types to C types (`type_map` in the script). -/
def type_map : List (String × String) := [
  ("bool", "bool"),
  ("i8", "int8_t"),
  ("i16", "int16_t"),
  ("i32", "int32_t"),
  ("i64", "int64_t"),
  ("u8", "uint8_t"),
  ("u16", "uint16_t"),
  ("u32", "uint32_t"),
  ("u64", "uint64_t"),
  ("libc::c_void", "void"),
  ("libc::c_char", "char"),
  ("libc::c_int", "int"),
  ("c_int", "int"),
  ("libc::int8_t", "int8_t"),
  ("libc::uint8_t", "uint8_t"),
  ("libc::uint16_t", "uint16_t"),
  ("libc::uint32_t", "uint32_t"),
  ("libc::uint64_t", "uint64_t"),
  ("SuricataContext", "SuricataContext"),
  ("SuricataFileContext", "SuricataFileContext"),
  ("FileContainer", "FileContainer"),
  ("core::Flow", "Flow"),
  ("Flow", "Flow"),
  ("DNSState", "RSDNSState"),
  ("DNSTransaction", "RSDNSTransaction"),
  ("NFSState", "NFSState"),
  ("NFSTransaction", "NFSTransaction"),
  ("NTPState", "NTPState"),
  ("NTPTransaction", "NTPTransaction"),
  ("TFTPTransaction", "TFTPTransaction"),
  ("TFTPState", "TFTPState"),
  ("JsonT", "json_t"),
  ("DetectEngineState", "DetectEngineState"),
  ("core::DetectEngineState", "DetectEngineState"),
  ("core::AppLayerDecoderEvents", "AppLayerDecoderEvents"),
  ("AppLayerDecoderEvents", "AppLayerDecoderEvents"),
  ("core::AppLayerEventType", "AppLayerEventType"),
  ("AppLayerEventType", "AppLayerEventType"),
  ("CLuaState", "lua_State"),
  ("Store", "Store"),
  ("AppProto", "AppProto")]

/-- The modifier spellings decorated by appending " *"
(first branch of the modifier test in `convert_type`). -/
def mut_mods : List String := ["*mut", "* mut", "&mut", "&\x27static mut"]

/-- The modifier spellings decorated by prepending "const " and
appending " *" (second branch). -/
def const_mods : List String := ["*const", "* const"]

/-- The modifier spellings decorated by appending " **" (third branch). -/
def mut_const_mods : List String := ["*mut *const", "*mut*const"]

/-- The errors raised by the script: the three distinct exception
messages of `convert_type`, plus the unpacking error that the argument
loop in `gen_headers` hits on a non-empty parameter fragment without a
colon. -/
inductive Err where
  | unknownType (rtype : String)
  | unknownModifier (mod rs_type : String)
  | failedToParse (rs_type : String)
  | noColon (arg : String)
deriving DecidableEq, Repr

instance {ε α : Type} [DecidableEq ε] [DecidableEq α] :
    DecidableEq (Except ε α) := fun a b =>
  match a, b with
  | .ok x, .ok y =>
    if h : x = y then .isTrue (by rw [h])
    else .isFalse (fun he => by cases he; exact h rfl)
  | .error x, .error y =>
    if h : x = y then .isTrue (by rw [h])
    else .isFalse (fun he => by cases he; exact h rfl)
  | .ok _, .error _ => .isFalse (fun he => by cases he)
  | .error _, .ok _ => .isFalse (fun he => by cases he)

/-- The end-of-string anchor of a Python regex without the MULTILINE
flag matches at the end of the subject, or just before a final newline.
`reCore` is the part of the subject that the expression body must
cover for such an anchored match: everything, or everything but a
final newline. -/
def reCore (s : List Char) : List Char :=
  if s.getLast? = some '\n' then s.dropLast else s

/-- Whether the first regex of `convert_type` matches: one or more
non-whitespace characters spanning the whole subject (up to a final
newline tolerated by the end anchor). -/
def re1Matches (s : List Char) : Bool :=
  let core := reCore s
  !core.isEmpty && core.all (fun c => !(isWs c))

/-- Split a list at its LAST whitespace character: returns the part
before it, the whitespace character, and the part after it (which by
construction contains no whitespace... it is everything after the last
whitespace). -/
def splitAtLastWs : List Char → Option (List Char × Char × List Char)
  | [] => none
  | c :: rest =>
    match splitAtLastWs rest with
    | some (p, w, t) => some (c :: p, w, t)
    | none => if isWs c then some ([], c, rest) else none

/-- Group extraction for the second regex of `convert_type`: a greedy
dot-star group, then a group of one whitespace character followed by
one or more non-whitespace characters, then the end anchor.  Greedy
matching picks the split at the last whitespace of the anchored core;
the match exists precisely when the tail after that whitespace is
non-empty and the prefix contains no newline (dot does not match
newline).  Returns (group 1, group 2). -/
def re2match (s : List Char) : Option (List Char × List Char) :=
  match splitAtLastWs (reCore s) with
  | some (p, w, t) =>
    if !t.isEmpty && p.all (fun c => c != '\n') then some (p, w :: t) else none
  | none => none

/-- Python string trimming: drop ASCII whitespace from both ends. -/
def stripChars (s : List Char) : List Char :=
  ((s.dropWhile isWs).reverse.dropWhile isWs).reverse

/-- `strip` on a Lean string. -/
def strip (s : String) : String := String.mk (stripChars s.data)

/-- The type translator (`convert_type` in the script).  First regex:
a single non-whitespace token, returned mapped only when present in the
table (absence falls through).  Second regex: split at the last
whitespace into a modifier prefix and a base token, both trimmed; the
base is looked up first, then the modifier is compared against the
three fixed spelling lists.  Anything else is a parse failure. -/
def convert_type (rs_type : String) : Except Err String :=
  match (if re1Matches rs_type.data then type_map.lookup rs_type else none) with
  | some c => .ok c
  | none =>
    match re2match rs_type.data with
    | some (g1, g2) =>
      let mod := strip (String.mk g1)
      let rtype := strip (String.mk g2)
      match type_map.lookup rtype with
      | some c =>
        if mod ∈ mut_mods then .ok (c ++ " *")
        else if mod ∈ const_mods then .ok ("const " ++ c ++ " *")
        else if mod ∈ mut_const_mods then .ok (c ++ " **")
        else .error (.unknownModifier mod rs_type)
      | none => .error (.unknownType rtype)
    | none => .error (.failedToParse rs_type)

/-! ## The declaration matcher

Embedding of the search expression used by `gen_headers`:

  caret pub (unsafe )?extern "C" fn ([A_Za-z0-9_]+)
  backslash-( ([^\x7b]+)? backslash-) (backslash-s+ -> ([^\x7b]+))?

compiled with the MULTILINE and DOTALL flags and scanned with
`findall`.  DOTALL is irrelevant (the pattern has no dot); MULTILINE
makes the start anchor match at the start of every line. -/

/-- Consume an exact literal prefix, or fail. -/
def dropLit : List Char → List Char → Option (List Char)
  | [], s => some s
  | _ :: _, [] => none
  | l :: ls, c :: cs => if c = l then dropLit ls cs else none

/-- The character class `[A_Za-z0-9_]` of the function-name group:
literally the characters A, underscore and Z, plus the lowercase and
digit ranges (not the full uppercase range). -/
def nameChar (c : Char) : Bool :=
  c = 'A' || c = '_' || c = 'Z' || ('a' ≤ c && c ≤ 'z') || ('0' ≤ c && c ≤ '9')

/-- Index of the last occurrence of a character in a list. -/
def lastIdxOf (target : Char) : List Char → Option Nat
  | [] => none
  | c :: rest =>
    match lastIdxOf target rest with
    | some i => some (i + 1)
    | none => if c = target then some 0 else none

/-- One regex match: the five capture groups, with the empty string for
a group that did not participate, exactly as `findall` reports them. -/
structure FnMatch where
  g1 : String
  g2 : String
  g3 : String
  g4 : String
  g5 : String
deriving DecidableEq, Repr

/-- Match the pattern tail following `pub (unsafe )?`: the literal
extern-C-fn marker, the name group (greedy over `nameChar`, non-empty,
immediately followed by an opening parenthesis), the optional argument
group (greedy over non-brace characters, backtracking to end at the
last closing parenthesis before the first brace), and the optional
arrow return group.  Returns groups 2, 3, 4, 5 and the rest of the
subject after the match. -/
def matchTail (s : List Char) : Option (String × String × String × String × List Char) :=
  match dropLit "extern \"C\" fn ".data s with
  | none => none
  | some s1 =>
    let name := s1.takeWhile nameChar
    let s2 := s1.drop name.length
    if name.isEmpty then none
    else
      match s2 with
      | '(' :: s3 =>
        let run := s3.takeWhile (fun c => c != '{')
        match lastIdxOf ')' run with
        | none => none
        | some k =>
          let g3 := run.take k
          let s4 := s3.drop (k + 1)
          let ws := s4.takeWhile isWs
          let s5 := s4.drop ws.length
          match (if ws.isEmpty then none else dropLit "-> ".data s5) with
          | some s6 =>
            let body := s6.takeWhile (fun c => c != '{')
            if body.isEmpty then
              some (String.mk name, String.mk g3, "", "", s4)
            else
              some (String.mk name, String.mk g3,
                String.mk (ws ++ "-> ".data ++ body), String.mk body,
                s6.drop body.length)
          | none => some (String.mk name, String.mk g3, "", "", s4)
      | _ => none

/-- Try to match the whole pattern at the start of the subject.
Returns the capture groups and the number of characters consumed.  The
optional `unsafe ` group is greedy: the branch that consumes it is
tried first, the branch without it on its failure. -/
def tryMatch (s : List Char) : Option (FnMatch × Nat) :=
  match dropLit "pub ".data s with
  | none => none
  | some s1 =>
    match
      (match dropLit "unsafe ".data s1 with
       | some s2 => (matchTail s2).map (fun r => ("unsafe ", r))
       | none => none) with
    | some (u, g2, g3, g4, g5, rest) =>
      some (⟨u, g2, g3, g4, g5⟩, s.length - rest.length)
    | none =>
      match matchTail s1 with
      | some (g2, g3, g4, g5, rest) =>
        some (⟨"", g2, g3, g4, g5⟩, s.length - rest.length)
      | none => none

/-- The `findall` scan: attempt a match at every position that is the
start of a line (position zero or a position right after a newline);
on success record the groups and resume after the matched text,
otherwise advance one character.  Fuel bounds the recursion; every
step consumes at least one character, so subject length plus one is
enough. -/
def scan : Nat → Bool → List Char → List FnMatch
  | 0, _, _ => []
  | _ + 1, _, [] => []
  | fuel + 1, atStart, c :: rest =>
    if atStart then
      match tryMatch (c :: rest) with
      | some (m, n) =>
        m :: scan fuel (((c :: rest).take n).getLast? == some '\n') ((c :: rest).drop n)
      | none => scan fuel (c == '\n') rest
    else scan fuel (c == '\n') rest

/-- All matches of the declaration pattern in a subject, in order. -/
def findAll (s : List Char) : List FnMatch := scan (s.length + 1) true s

/-! ## Descriptor extraction and prototype formatting -/

/-- Python splitting on a separator character: every separator splits,
empty pieces are kept, and the empty string yields one empty piece. -/
def splitOn (sep : Char) : List Char → List (List Char)
  | [] => [[]]
  | c :: rest =>
    match splitOn sep rest with
    | h :: t => if c = sep then [] :: h :: t else (c :: h) :: t
    | [] => [[]]

/-- Python splitting on the FIRST occurrence of a separator character
into exactly two pieces; fails when the separator is absent (in the
script, unpacking the one-element list then raises). -/
def splitFirst (sep : Char) : List Char → Option (List Char × List Char)
  | [] => none
  | c :: rest =>
    if c = sep then some ([], rest)
    else
      match splitFirst sep rest with
      | some (a, b) => some (c :: a, b)
      | none => none

/-- A function descriptor: name, ordered (name, raw type) parameter
pairs (both trimmed; empty comma fragments skipped), and the trimmed
raw return type, empty when the arrow group was absent. -/
structure FnDecl where
  name : String
  params : List (String × String)
  ret : String
deriving DecidableEq, Repr

/-- The argument loop of `gen_headers`, kept at the descriptor level:
skip empty fragments, split each remaining fragment at the first colon
into a name and a raw type, trim both.  A non-empty fragment without a
colon raises. -/
def collectParams : List String → Except Err (List (String × String))
  | [] => .ok []
  | frag :: rest =>
    if frag = "" then collectParams rest
    else
      match splitFirst ':' frag.data with
      | none => .error (.noColon frag)
      | some (n, t) =>
        match collectParams rest with
        | .error e => .error e
        | .ok ps => .ok ((strip (String.mk n), strip (String.mk t)) :: ps)

/-- Build the descriptor of one match: split the argument group on
commas and collect the parameters, keep the name group and the trimmed
return group. -/
def extractMatch (fn : FnMatch) : Except Err FnDecl :=
  match collectParams ((splitOn ',' fn.g3.data).map String.mk) with
  | .error e => .error e
  | .ok ps => .ok ⟨fn.g2, ps, strip fn.g5⟩

/-- Error-propagating map, processing the list front to back so that
the first failing element determines the error, as the loop in the
script does. -/
def exceptMap (f : α → Except Err β) : List α → Except Err (List β)
  | [] => .ok []
  | x :: xs =>
    match f x with
    | .error e => .error e
    | .ok y =>
      match exceptMap f xs with
      | .error e => .error e
      | .ok ys => .ok (y :: ys)

/-- The Signature Extractor: one descriptor per pattern match, in
match order. -/
def extract (src : String) : Except Err (List FnDecl) :=
  exceptMap extractMatch (findAll src.data)

/-- Rendering of one translated parameter (the append calls in the
argument loop): type and name separated by a space, or the type alone
for the placeholder name. -/
def renderArg (arg_name c_type : String) : String :=
  if arg_name ≠ "_" then c_type ++ " " ++ arg_name else c_type

/-- The argument loop of `gen_headers` at the rendering level: skip
empty fragments, colon-split and trim, translate the raw type, render
with `renderArg`.  A non-empty fragment without a colon raises, and a
translation failure propagates. -/
def buildArgs : List String → Except Err (List String)
  | [] => .ok []
  | frag :: rest =>
    if frag = "" then buildArgs rest
    else
      match splitFirst ':' frag.data with
      | none => .error (.noColon frag)
      | some (n, t) =>
        match convert_type (strip (String.mk t)) with
        | .error e => .error e
        | .ok c =>
          match buildArgs rest with
          | .error e => .error e
          | .ok args => .ok (renderArg (strip (String.mk n)) c :: args)

/-- One prototype line from one match: translated arguments (the
explicit void marker when there are none), translated return type
(void when the arrow group was absent), formatted as
`RET NAME(ARGS);`. -/
def processMatch (fn : FnMatch) : Except Err String :=
  match buildArgs ((splitOn ',' fn.g3.data).map String.mk) with
  | .error e => .error e
  | .ok args0 =>
    let args := if args0 = [] then ["void"] else args0
    let retType := strip fn.g5
    match (if retType = "" then .ok "void" else convert_type retType) with
    | .error e => .error e
    | .ok returns =>
      .ok (returns ++ " " ++ fn.g2 ++ "(" ++ String.intercalate ", " args ++ ");")

/-- The core of `gen_headers`: the ordered prototype lines written for
a source text, or the first error raised. -/
def gen_prototypes (src : String) : Except Err (List String) :=
  exceptMap processMatch (findAll src.data)

/-! ## Helper lemmas -/

theorem splitAtLastWs_eq_none (l : List Char)
    (h : l.all (fun c => !(isWs c)) = true) : splitAtLastWs l = none := by
  induction l with
  | nil => rfl
  | cons c rest ih =>
    simp only [List.all_cons, Bool.and_eq_true] at h
    have hc : isWs c = false := by
      cases hic : isWs c
      · rfl
      · rw [hic] at h
        simp at h
    simp [splitAtLastWs, ih h.2, hc]

theorem mem_of_getLast?_eq_some {l : List Char} {a : Char}
    (h : l.getLast? = some a) : a ∈ l := by
  induction l with
  | nil => simp [List.getLast?] at h
  | cons c rest ih =>
    cases rest with
    | nil =>
      simp [List.getLast?] at h
      simp [h]
    | cons d rest2 =>
      rw [List.getLast?_cons_cons] at h
      exact List.mem_cons_of_mem _ (ih h)

theorem reCore_eq_self_of_all_nonws (l : List Char)
    (h : l.all (fun c => !(isWs c)) = true) : reCore l = l := by
  unfold reCore
  rw [if_neg]
  intro heq
  have := (List.all_eq_true.mp h) _ (mem_of_getLast?_eq_some heq)
  simp [isWs] at this

theorem splitAtLastWs_append (mod base : List Char)
    (hba : base.all (fun c => !(isWs c)) = true) :
    splitAtLastWs (mod ++ ' ' :: base) = some (mod, ' ', base) := by
  induction mod with
  | nil =>
    simp only [List.nil_append, splitAtLastWs, splitAtLastWs_eq_none base hba]
    rfl
  | cons c rest ih =>
    simp only [List.cons_append, splitAtLastWs, List.append_eq, ih]

theorem getLast?_append_base (mod base : List Char) (hb : base ≠ []) :
    (mod ++ ' ' :: base).getLast? = base.getLast? := by
  rw [List.getLast?_append_cons]
  cases base with
  | nil => exact absurd rfl hb
  | cons d rest => rw [List.getLast?_cons_cons]

theorem reCore_modbase (mod base : List Char) (hb : base ≠ [])
    (hba : base.all (fun c => !(isWs c)) = true) :
    reCore (mod ++ ' ' :: base) = mod ++ ' ' :: base := by
  have hne : (mod ++ ' ' :: base).getLast? ≠ some '\n' := by
    rw [getLast?_append_base mod base hb]
    intro heq
    have := (List.all_eq_true.mp hba) _ (mem_of_getLast?_eq_some heq)
    simp [isWs] at this
  unfold reCore
  rw [if_neg hne]

theorem re2match_modbase (mod base : List Char) (hb : base ≠ [])
    (hba : base.all (fun c => !(isWs c)) = true)
    (hnl : mod.all (fun c => c != '\n') = true) :
    re2match (mod ++ ' ' :: base) = some (mod, ' ' :: base) := by
  have hbe : base.isEmpty = false := by
    cases base with
    | nil => exact absurd rfl hb
    | cons _ _ => rfl
  unfold re2match
  rw [reCore_modbase mod base hb hba, splitAtLastWs_append mod base hba]
  simp [hbe, hnl]

theorem re1Matches_modbase (mod base : List Char) (hb : base ≠ [])
    (hba : base.all (fun c => !(isWs c)) = true) :
    re1Matches (mod ++ ' ' :: base) = false := by
  unfold re1Matches
  rw [reCore_modbase mod base hb hba]
  cases hall : (mod ++ ' ' :: base).all (fun c => !(isWs c)) with
  | false => simp [hall]
  | true =>
    have := (List.all_eq_true.mp hall) ' ' (by simp)
    simp [isWs] at this

theorem dropWhile_nonws (l : List Char)
    (h : l.all (fun c => !(isWs c)) = true) : l.dropWhile isWs = l := by
  cases l with
  | nil => rfl
  | cons c rest =>
    simp only [List.all_cons, Bool.and_eq_true] at h
    have hc : isWs c = false := by
      cases hic : isWs c
      · rfl
      · rw [hic] at h
        simp at h
    simp [List.dropWhile, hc]

theorem stripChars_nonws (l : List Char)
    (h : l.all (fun c => !(isWs c)) = true) : stripChars l = l := by
  unfold stripChars
  rw [dropWhile_nonws l h, dropWhile_nonws l.reverse (by rw [List.all_reverse]; exact h),
    List.reverse_reverse]

theorem stripChars_space_cons (base : List Char)
    (h : base.all (fun c => !(isWs c)) = true) :
    stripChars (' ' :: base) = base := by
  unfold stripChars
  have h1 : (' ' :: base).dropWhile isWs = base.dropWhile isWs := by
    simp [List.dropWhile, isWs]
  rw [h1, dropWhile_nonws base h,
    dropWhile_nonws base.reverse (by rw [List.all_reverse]; exact h),
    List.reverse_reverse]

theorem modbase_data (mod base : String) :
    (mod ++ " " ++ base).data = mod.data ++ ' ' :: base.data := by
  show (mod ++ " " ++ base).data = mod.data ++ ([' '] ++ base.data)
  rw [← List.append_assoc]
  rfl

/-! ## Theorems -/

/-- C1: translating any base type present in the table alone returns
exactly its mapped value, and translating it prefixed by any recognized
modifier spelling and a space returns the mapped value decorated
exactly per that modifier branch: a star appended, const prepended and
a star appended, or a double star appended. -/
theorem convert_type_table_roundtrip :
    ∀ p ∈ type_map, convert_type p.1 = .ok p.2 ∧
      (∀ m ∈ mut_mods,
        convert_type (m ++ " " ++ p.1) = .ok (p.2 ++ " *")) ∧
      (∀ m ∈ const_mods,
        convert_type (m ++ " " ++ p.1) = .ok ("const " ++ p.2 ++ " *")) ∧
      (∀ m ∈ mut_const_mods,
        convert_type (m ++ " " ++ p.1) = .ok (p.2 ++ " **")) := by
  decide

/-- Instantiation of the table round-trip at the u8 entry and the
star-mut modifier. -/
theorem convert_type_table_roundtrip_spot :
    convert_type "*mut u8" = .ok "uint8_t *" :=
  (convert_type_table_roundtrip ("u8", "uint8_t") (by decide)).2.1 "*mut" (by decide)

/-- C3 counterexample: the bare token foo is absent from the type
table, and translating it fails with the parse-failure error, not with
the unknown-type error the claim names. -/
theorem convert_type_bare_absent_not_unknownType :
    type_map.lookup "foo" = none ∧
    convert_type "foo" = .error (.failedToParse "foo") := ⟨rfl, rfl⟩

/-- C3 amended: a raw type that is a single bare non-empty token with
no whitespace and is absent from the type table fails with the
parse-failure error (the single-token branch falls through on a failed
lookup, and the two-part regex cannot match a whitespace-free
subject). -/
theorem convert_type_bare_absent (s : String)
    (h1 : s.data ≠ []) (h2 : s.data.all (fun c => !(isWs c)) = true)
    (h3 : type_map.lookup s = none) :
    convert_type s = .error (.failedToParse s) := by
  have hre1 : re1Matches s.data = true := by
    unfold re1Matches
    rw [reCore_eq_self_of_all_nonws _ h2]
    simp [h1, h2]
  have hre2 : re2match s.data = none := by
    unfold re2match
    rw [reCore_eq_self_of_all_nonws _ h2, splitAtLastWs_eq_none _ h2]
  simp [convert_type, hre1, h3, hre2]

/-- Instantiation of the bare-unknown-token result at a concrete
token. -/
theorem convert_type_bare_absent_spot :
    convert_type "zzz" = .error (.failedToParse "zzz") :=
  convert_type_bare_absent "zzz" (by decide) (by decide) (by rfl)

/-- C6: a raw type made of a modifier prefix, a space and a base token
present in the table fails with the unknown-modifier error whenever the
trimmed prefix is not one of the enumerated spellings, chained
modifier stacks of deeper nesting included; no decoration is guessed. -/
theorem convert_type_unknown_modifier (mod base c : String)
    (hb : base.data ≠ []) (hba : base.data.all (fun c => !(isWs c)) = true)
    (hnl : mod.data.all (fun c => c != '\n') = true)
    (hlk : type_map.lookup base = some c)
    (hm1 : strip mod ∉ mut_mods) (hm2 : strip mod ∉ const_mods)
    (hm3 : strip mod ∉ mut_const_mods) :
    convert_type (mod ++ " " ++ base) =
      .error (.unknownModifier (strip mod) (mod ++ " " ++ base)) := by
  have h1 : re1Matches (mod ++ " " ++ base).data = false := by
    rw [modbase_data]
    exact re1Matches_modbase _ _ hb hba
  have h2 : re2match (mod ++ " " ++ base).data =
      some (mod.data, ' ' :: base.data) := by
    rw [modbase_data]
    exact re2match_modbase _ _ hb hba hnl
  have h3 : strip (String.mk (' ' :: base.data)) = base := by
    show String.mk (stripChars (' ' :: base.data)) = base
    rw [stripChars_space_cons base.data hba]
  have h4 : strip (String.mk mod.data) = strip mod := rfl
  simp only [convert_type, h1, Bool.false_eq_true, if_false, h2, h3, h4, hlk]
  rw [if_neg hm1, if_neg hm2, if_neg hm3]

/-- Instantiation of the unknown-modifier result at a chained modifier
stack over the u8 entry. -/
theorem convert_type_unknown_modifier_spot :
    convert_type "*mut *mut u8" =
      .error (.unknownModifier "*mut *mut" "*mut *mut u8") :=
  convert_type_unknown_modifier "*mut *mut" "u8" "uint8_t"
    (by decide) (by decide) (by decide) (by rfl)
    (by decide) (by decide) (by decide)

/-- C9: a raw type made of a modifier prefix, a space and a base token
absent from the table fails with the unknown-type error: the base
lookup is performed before the modifier lookup, so the unknown-type
error is reported with no condition at all on the modifier spelling. -/
theorem convert_type_unknown_type_first (mod base : String)
    (hb : base.data ≠ []) (hba : base.data.all (fun c => !(isWs c)) = true)
    (hnl : mod.data.all (fun c => c != '\n') = true)
    (hlk : type_map.lookup base = none) :
    convert_type (mod ++ " " ++ base) = .error (.unknownType base) := by
  have h1 : re1Matches (mod ++ " " ++ base).data = false := by
    rw [modbase_data]
    exact re1Matches_modbase _ _ hb hba
  have h2 : re2match (mod ++ " " ++ base).data =
      some (mod.data, ' ' :: base.data) := by
    rw [modbase_data]
    exact re2match_modbase _ _ hb hba hnl
  have h3 : strip (String.mk (' ' :: base.data)) = base := by
    show String.mk (stripChars (' ' :: base.data)) = base
    rw [stripChars_space_cons base.data hba]
  simp only [convert_type, h1, Bool.false_eq_true, if_false, h2, h3, hlk]

/-- Instantiation of the base-before-modifier error order at a prefix
that is itself unrecognized. -/
theorem convert_type_unknown_type_first_spot :
    convert_type "xyz foo" = .error (.unknownType "foo") :=
  convert_type_unknown_type_first "xyz" "foo"
    (by decide) (by decide) (by decide) (by rfl)

/-- C5: a source text declaring an exported function named example_fn
with an empty parameter list and no return-type arrow yields exactly
the line `void example_fn(void);`: the empty parameter list renders as
the explicit void marker and the absent return group renders as the
void return type. -/
theorem gen_example_fn_line :
    gen_prototypes "pub extern \"C\" fn example_fn() \x7b\n\x7d\n" =
      .ok ["void example_fn(void);"] := by
  rfl

theorem exceptMap_ok_forall₂ {α β : Type} (f : α → Except Err β) :
    ∀ (xs : List α) (ys : List β), exceptMap f xs = .ok ys →
      List.Forall₂ (fun x y => f x = .ok y) xs ys := by
  intro xs
  induction xs with
  | nil =>
    intro ys h
    rw [exceptMap] at h
    cases h
    exact .nil
  | cons x rest ih =>
    intro ys h
    rw [exceptMap] at h
    cases hfx : f x with
    | error e =>
      rw [hfx] at h
      cases h
    | ok y =>
      rw [hfx] at h
      cases hrest : exceptMap f rest with
      | error e =>
        rw [hrest] at h
        cases h
      | ok ys2 =>
        rw [hrest] at h
        cases h
        exact .cons hfx (ih ys2 hrest)

theorem exceptMap_ok_of_forall {α β : Type} (f : α → Except Err β) :
    ∀ xs : List α, (∀ x ∈ xs, ∃ y, f x = .ok y) →
      ∃ ys, exceptMap f xs = .ok ys := by
  intro xs
  induction xs with
  | nil => exact fun _ => ⟨[], rfl⟩
  | cons x rest ih =>
    intro h
    obtain ⟨y, hy⟩ := h x (List.mem_cons_self x rest)
    obtain ⟨ys, hys⟩ := ih (fun z hz => h z (List.mem_cons_of_mem x hz))
    exact ⟨y :: ys, by rw [exceptMap, hy, hys]⟩

theorem collectParams_ok (frags : List String)
    (h : ∀ frag ∈ frags, frag = "" ∨ (splitFirst ':' frag.data).isSome = true) :
    ∃ ps, collectParams frags = .ok ps := by
  induction frags with
  | nil => exact ⟨[], rfl⟩
  | cons frag rest ih =>
    obtain ⟨ps, hps⟩ := ih (fun z hz => h z (List.mem_cons_of_mem _ hz))
    by_cases hfe : frag = ""
    · exact ⟨ps, by rw [collectParams, if_pos hfe, hps]⟩
    · rcases h frag (List.mem_cons_self _ _) with hf | hf
      · exact absurd hf hfe
      · cases hsp : splitFirst ':' frag.data with
        | none =>
          rw [hsp] at hf
          cases hf
        | some p =>
          obtain ⟨n, t⟩ := p
          exact ⟨(strip (String.mk n), strip (String.mk t)) :: ps,
            by rw [collectParams, if_neg hfe, hsp, hps]⟩

/-- C2 counterexample: a declaration that matches the recognized shape
but whose single parameter fragment has no colon makes extraction
fail, rather than being excluded from the result sequence. -/
theorem extract_error_on_colonless_fragment :
    extract "pub extern \"C\" fn foo(x) \x7b\n\x7d\n" = .error (.noColon "x") := rfl

/-- C2 amended: extraction succeeds on every source text in which each
comma fragment of each matched declaration is empty or contains a
colon; text not matching the recognized shape is excluded rather than
an error, but a matched declaration with a non-empty colon-free
parameter fragment makes extraction fail. -/
theorem extract_ok_of_colon_fragments (src : String)
    (h : ∀ m ∈ findAll src.data,
      ∀ frag ∈ (splitOn ',' m.g3.data).map String.mk,
        frag = "" ∨ (splitFirst ':' frag.data).isSome = true) :
    ∃ l, extract src = .ok l := by
  unfold extract
  apply exceptMap_ok_of_forall
  intro m hm
  obtain ⟨ps, hps⟩ := collectParams_ok _ (h m hm)
  exact ⟨⟨m.g2, ps, strip m.g5⟩, by rw [extractMatch, hps]⟩

/-- Instantiation of extraction success at a text with one recognized
declaration with colon-separated parameters. -/
theorem extract_ok_of_colon_fragments_spot :
    ∃ l, extract "pub extern \"C\" fn f(a: u8) \x7b\n\x7d\n" = .ok l :=
  extract_ok_of_colon_fragments "pub extern \"C\" fn f(a: u8) \x7b\n\x7d\n" (by decide)

/-- C4 counterexample: a source text with exactly one matching
declaration on which extraction yields an error rather than a
one-descriptor sequence. -/
theorem extract_not_one_per_match_on_colonless :
    (findAll ("pub extern \"C\" fn bar(y) \x7b\n\x7d\n").data).length = 1 ∧
    extract "pub extern \"C\" fn bar(y) \x7b\n\x7d\n" = .error (.noColon "y") :=
  ⟨rfl, rfl⟩

/-- C4 amended: a source text with zero matching declarations yields
the empty sequence, and whenever extraction succeeds it yields exactly
one descriptor per match of the declaration pattern, in match order
(extraction can instead fail, on a matched declaration with a
non-empty colon-free parameter fragment). -/
theorem extract_one_descriptor_per_match (src : String) :
    (findAll src.data = [] → extract src = .ok []) ∧
    ∀ l, extract src = .ok l →
      List.Forall₂ (fun m d => extractMatch m = .ok d) (findAll src.data) l := by
  constructor
  · intro h
    unfold extract
    rw [h]
    rfl
  · intro l h
    exact exceptMap_ok_forall₂ extractMatch _ l h

/-- Instantiation of the one-descriptor-per-match law at a text with
one recognized declaration. -/
theorem extract_one_descriptor_per_match_spot :
    List.Forall₂ (fun m d => extractMatch m = .ok d)
      (findAll ("pub extern \"C\" fn f(a: u8) -> u32 \x7b\n\x7d\n").data)
      [⟨"f", [("a", "u8")], "u32"⟩] :=
  (extract_one_descriptor_per_match "pub extern \"C\" fn f(a: u8) -> u32 \x7b\n\x7d\n").2
    [⟨"f", [("a", "u8")], "u32"⟩] (by rfl)

/-- C7: for every fragment list accepted by the argument loop, the
rendered list has exactly one entry per non-empty fragment, in order;
a parameter whose trimmed name is the placeholder token renders as its
translated type alone, and every other parameter renders as its
translated type, a space and its name. -/
theorem buildArgs_placeholder_positional (frags rs : List String)
    (h : buildArgs frags = .ok rs) :
    List.Forall₂ (fun frag r => ∃ n t c,
      splitFirst ':' frag.data = some (n, t) ∧
      convert_type (strip (String.mk t)) = .ok c ∧
      (strip (String.mk n) = "_" → r = c) ∧
      (strip (String.mk n) ≠ "_" → r = c ++ " " ++ strip (String.mk n)))
      (frags.filter (fun f => f != "")) rs := by
  induction frags generalizing rs with
  | nil =>
    rw [buildArgs] at h
    cases h
    exact .nil
  | cons frag rest ih =>
    by_cases hf : frag = ""
    · subst hf
      rw [buildArgs, if_pos rfl] at h
      simpa using ih rs h
    · rw [buildArgs, if_neg hf] at h
      split at h
      · cases h
      · rename_i n t hsp
        split at h
        · cases h
        · rename_i c hc
          split at h
          · cases h
          · rename_i args hb
            cases h
            have hfil : (frag :: rest).filter (fun f => f != "") =
                frag :: rest.filter (fun f => f != "") := by
              simp [List.filter_cons, hf]
            rw [hfil]
            refine .cons ⟨n, t, c, hsp, hc, ?_, ?_⟩ (ih args hb)
            · intro hn
              simp [renderArg, hn]
            · intro hn
              simp [renderArg, hn]

/-- Instantiation of the parameter-rendering law at a placeholder
parameter followed by a named one. -/
theorem buildArgs_placeholder_positional_spot :
    List.Forall₂ (fun frag r => ∃ n t c,
      splitFirst ':' frag.data = some (n, t) ∧
      convert_type (strip (String.mk t)) = .ok c ∧
      (strip (String.mk n) = "_" → r = c) ∧
      (strip (String.mk n) ≠ "_" → r = c ++ " " ++ strip (String.mk n)))
      (["_: u8", "x: u16"].filter (fun f => f != ""))
      ["uint8_t", "uint16_t x"] :=
  buildArgs_placeholder_positional ["_: u8", "x: u16"]
    ["uint8_t", "uint16_t x"] (by rfl)

/-- C8: generation is deterministic: the ordered prototype lines depend
only on the source text (and the fixed tables baked into the
definitions), so identical inputs give byte-identical line lists. -/
theorem gen_prototypes_deterministic (s t : String) (h : s = t) :
    gen_prototypes s = gen_prototypes t := by rw [h]

/-- Instantiation of determinism at a concrete source text. -/
theorem gen_prototypes_deterministic_spot :
    gen_prototypes "pub extern \"C\" fn example_fn() \x7b\n\x7d\n" =
      gen_prototypes "pub extern \"C\" fn example_fn() \x7b\n\x7d\n" :=
  gen_prototypes_deterministic "pub extern \"C\" fn example_fn() \x7b\n\x7d\n"
    "pub extern \"C\" fn example_fn() \x7b\n\x7d\n" rfl

/-- C10: the name group of the declaration pattern admits only the
characters A, underscore, Z, lowercase letters and digits, so a
declaration whose name contains another uppercase letter yields no
descriptor, while a name drawn from the admitted characters does. -/
theorem extract_name_class :
    extract "pub extern \"C\" fn MyFn() \x7b\n\x7d\n" = .ok [] ∧
    extract "pub extern \"C\" fn AZ_f9() \x7b\n\x7d\n" =
      .ok [⟨"AZ_f9", [], ""⟩] := by
  exact ⟨rfl, rfl⟩

end GenCHeaders
